import Mathlib

/-!
Shallow embedding of the framebuffer synchronization engine of a VNC viewer
client (sources: `src/main.rs` and `src/app/vnc_handler.rs`, `src/app/ui.rs`).
Machine integers are modelled as `Nat`; `u16` additions that can wrap are
taken modulo 2^16 (release-mode wrapping semantics), `u8` casts as `% 256`.
Fallible operations (Rust indexing panics, `Result::unwrap`) return `Option`,
with `none` standing for a panic.
-/

set_option autoImplicit false

namespace VncClient

/-- egui `Color32`, restricted to the `from_rgb` constructor used by the code
(alpha is always 255 and is omitted). -/
structure Color32 where
  r : Nat
  g : Nat
  b : Nat
deriving DecidableEq, Repr

/-- `Color32::BLACK`. -/
def Color32.BLACK : Color32 := ⟨0, 0, 0⟩

/-- `vnc::Rect { left, top, width, height }` (all `u16`, modelled as `Nat`). -/
structure Rect where
  left : Nat
  top : Nat
  width : Nat
  height : Nat
deriving DecidableEq, Repr

/-- The fields of `vnc::PixelFormat` read by `update_pixels`. -/
structure PixelFormat where
  bitsPerPixel : Nat
  bigEndian : Bool
  redShift : Nat
  redMax : Nat
  greenShift : Nat
  greenMax : Nat
  blueShift : Nat
  blueMax : Nat
deriving DecidableEq, Repr

/-- `AppState` from `main.rs` / `app/mod.rs` (the spec calls `Connect` the
`Disconnected` state and `Viewing` the `Connected` state). -/
inductive AppState where
  | Connect
  | Viewing
deriving DecidableEq, Repr

/-- One outbound `request_update(rect, incremental)` call recorded in order. -/
structure UpdateRequest where
  rect : Rect
  incremental : Bool
deriving DecidableEq, Repr

/-- `vnc::client::Event`, restricted to the variants matched by
`handle_vnc_events`; `Other` is the catch-all `_ => {}` arm.  The pixel
format accompanying `PutPixels` is obtained from the session
(`vnc.format()`) and is passed to the drain separately. -/
inductive Event where
  | Disconnected (reason : String)
  | Resize (w h : Nat)
  | PutPixels (rect : Rect) (bytes : List Nat)
  | CopyPixels (src dst : Rect)
  | EndOfFrame
  | Other
deriving DecidableEq, Repr

/-! ### Pixel decoder (`update_pixels`, lines 224-276) -/

/-- Reassembly of one sample from the byte stream at cursor `i`:
the `match bpp { 1 => .., 2 => .., 4 => .., _ => 0 }` expression.
Bytes are `u8`, hence the `% 256`. -/
def sampleAt (fmt : PixelFormat) (bpp : Nat) (bytes : List Nat) (i : Nat) : Nat :=
  if bpp = 1 then bytes.getD i 0 % 256
  else if bpp = 2 then
    if fmt.bigEndian then
      (bytes.getD i 0 % 256) <<< 8 ||| (bytes.getD (i+1) 0 % 256)
    else
      (bytes.getD (i+1) 0 % 256) <<< 8 ||| (bytes.getD i 0 % 256)
  else if bpp = 4 then
    if fmt.bigEndian then
      (bytes.getD i 0 % 256) <<< 24 ||| (bytes.getD (i+1) 0 % 256) <<< 16 |||
        (bytes.getD (i+2) 0 % 256) <<< 8 ||| (bytes.getD (i+3) 0 % 256)
    else
      (bytes.getD (i+3) 0 % 256) <<< 24 ||| (bytes.getD (i+2) 0 % 256) <<< 16 |||
        (bytes.getD (i+1) 0 % 256) <<< 8 ||| (bytes.getD i 0 % 256)
  else 0

/-- One channel: `raw = (val >> shift) & max` followed by the three-way
scaling (`max == 255` direct, `max > 0` rescale, else 0); the `as u8`
casts are the `% 256`. -/
def channelOf (val shift mx : Nat) : Nat :=
  let raw := (val >>> shift) &&& mx
  if mx = 255 then raw % 256
  else if 0 < mx then raw * 255 / mx % 256
  else 0

/-- The RGB triple written for the sample found at cursor `i`
(`Color32::from_rgb(r, g, b)`). -/
def decodeAt (fmt : PixelFormat) (bpp : Nat) (bytes : List Nat) (i : Nat) : Color32 :=
  let val := sampleAt fmt bpp bytes i
  { r := channelOf val fmt.redShift fmt.redMax
    g := channelOf val fmt.greenShift fmt.greenMax
    b := channelOf val fmt.blueShift fmt.blueMax }

/-! ### `update_pixels` (lines 210-280) -/

/-- The buffer indices targeted by the two nested loops of `update_pixels`,
in iteration order: `pixel_idx = ((rect.top + y) as usize) * screen_w +
rect.left as usize + x as usize` for `y in 0..rect.height`,
`x in 0..rect.width`.  The `u16` addition `rect.top + y` wraps. -/
def pixelCoords (rect : Rect) (screenW : Nat) : List Nat :=
  (List.range rect.height).flatMap fun y =>
    (List.range rect.width).map fun x =>
      ((rect.top + y) % 65536) * screenW + rect.left + x

/-- Loop body of `update_pixels`: the state is the buffer plus the byte
cursor `i`; a pixel is written (and the cursor advanced) only when both
`pixel_idx < self.pixels.len()` and `i + bpp <= pixels.len()` hold. -/
def putStep (fmt : PixelFormat) (bpp : Nat) (bytes : List Nat)
    (acc : List Color32 × Nat) (idx : Nat) : List Color32 × Nat :=
  if idx < acc.1.length ∧ acc.2 + bpp ≤ bytes.length then
    (acc.1.set idx (decodeAt fmt bpp bytes acc.2), acc.2 + bpp)
  else acc

/-- `update_pixels(rect, pixels, format)` acting on the buffer; total
because every buffer access in the source is guarded. -/
def updatePixels (screenW : Nat) (ps : List Color32) (rect : Rect)
    (bytes : List Nat) (fmt : PixelFormat) : List Color32 :=
  ((pixelCoords rect screenW).foldl
    (putStep fmt (fmt.bitsPerPixel / 8) bytes) (ps, 0)).1

/-! ### `copy_pixels` (lines 180-208) -/

/-- The `(dst_idx, src_idx)` pairs visited by `copy_pixels`, in iteration
order: rows `0..height` top-to-bottom when `dst.top < src.top`, else
bottom-to-top; columns always left-to-right.  All dimensions come from
`src` (`width = src.width`, `height = src.height`); index arithmetic is in
`usize` and cannot overflow. -/
def copyPairs (screenW : Nat) (src dst : Rect) : List (Nat × Nat) :=
  let ys := if dst.top < src.top then List.range src.height
            else (List.range src.height).reverse
  ys.flatMap fun y =>
    (List.range src.width).map fun x =>
      ((dst.top + y) * screenW + (dst.left + x),
       (src.top + y) * screenW + (src.left + x))

/-- One `self.pixels[dst_idx] = self.pixels[src_idx];` assignment: the
source read panics (`none`) when `src_idx` is out of range, then the
destination write panics when `dst_idx` is out of range. -/
def copyStep (acc : Option (List Color32)) (p : Nat × Nat) : Option (List Color32) :=
  acc.bind fun ps =>
    match ps[p.2]? with
    | none => none
    | some v => if p.1 < ps.length then some (ps.set p.1 v) else none

/-- `copy_pixels(src, dst)` acting on the buffer; `none` means a panic
(index out of bounds). -/
def copyPixels (screenW : Nat) (ps : List Color32) (src dst : Rect) :
    Option (List Color32) :=
  (copyPairs screenW src dst).foldl copyStep (some ps)

/-- Modelled from the spec (§4.2/§8 "copying into a fresh independent
buffer"): every destination cell receives the pixel the *original*
snapshot of the buffer holds at the corresponding source cell. -/
def copySnapshot (screenW : Nat) (ps : List Color32) (src dst : Rect) :
    List Color32 :=
  (copyPairs screenW src dst).foldl
    (fun cur p => cur.set p.1 (ps.getD p.2 Color32.BLACK)) ps

/-! ### Event drain (`handle_vnc_events`, lines 86-178) -/

/-- The mutable locals of one drain: the engine fields the loop touches
plus the `updated` flag, and the observable effects accumulated so far
(outbound `request_update` calls in order, number of
`ctx.request_repaint()` calls). -/
structure LoopState where
  screenSize : Nat × Nat
  pixels : List Color32
  updated : Bool
  requests : List UpdateRequest
  repaints : Nat
deriving DecidableEq, Repr

/-- Observable outcome of one `handle_vnc_events` drain. `finalRedraw`
records whether the end-of-drain `update_texture(ctx); ctx.request_repaint()`
block ran (its repaint is also counted in `repaints`). -/
structure TickResult where
  state : AppState
  hasClient : Bool
  screenSize : Nat × Nat
  pixels : List Color32
  requests : List UpdateRequest
  repaints : Nat
  finalRedraw : Bool
deriving DecidableEq, Repr

/-- The code after the `while` loop: when `updated` is set the texture is
pushed and one repaint is requested; the session handle is put back. -/
def finishTick (ls : LoopState) : TickResult :=
  { state := AppState.Viewing
    hasClient := true
    screenSize := ls.screenSize
    pixels := ls.pixels
    requests := ls.requests
    repaints := ls.repaints + (if ls.updated then 1 else 0)
    finalRedraw := ls.updated }

/-- One arm of the `match event`.  `Sum.inr` is the early `return` of the
`Disconnected` arm (state back to `Connect`, session handle dropped, the
`if updated` block skipped).  `sendOk` tells whether outbound
`request_update` calls succeed; the `EndOfFrame` arm `.unwrap()`s the
result, so a failure there is a panic (`none`). -/
def stepEvent (sendOk : Bool) (fmt : PixelFormat) (ls : LoopState) :
    Event → Option (LoopState ⊕ TickResult)
  | Event.Disconnected _ =>
      some (Sum.inr { state := AppState.Connect
                      hasClient := false
                      screenSize := ls.screenSize
                      pixels := ls.pixels
                      requests := ls.requests
                      repaints := ls.repaints
                      finalRedraw := false })
  | Event.Resize w h =>
      some (Sum.inl { ls with
        screenSize := (w, h)
        pixels := List.replicate (w * h) Color32.BLACK
        updated := true })
  | Event.PutPixels rect bytes =>
      some (Sum.inl { ls with
        pixels := updatePixels ls.screenSize.1 ls.pixels rect bytes fmt
        updated := true })
  | Event.CopyPixels src dst =>
      (copyPixels ls.screenSize.1 ls.pixels src dst).map fun ps =>
        Sum.inl { ls with pixels := ps, updated := true }
  | Event.EndOfFrame =>
      if sendOk then
        some (Sum.inl { ls with
          repaints := ls.repaints + 1
          requests := ls.requests ++
            [⟨⟨0, 0, ls.screenSize.1, ls.screenSize.2⟩, true⟩] })
      else none
  | Event.Other => some (Sum.inl ls)

/-- The `while let Some(event) = vnc.poll_event()` loop over the finite
event sequence of one tick, followed by the end-of-drain block. -/
def drainLoop (sendOk : Bool) (fmt : PixelFormat) (ls : LoopState) :
    List Event → Option TickResult
  | [] => some (finishTick ls)
  | e :: rest =>
    match stepEvent sendOk fmt ls e with
    | none => none
    | some (Sum.inl ls') => drainLoop sendOk fmt ls' rest
    | some (Sum.inr r) => some r

/-- Runs a sequence of events without the trailing end-of-drain block:
`Sum.inl` is the loop state after the sequence, `Sum.inr` an early return. -/
def runList (sendOk : Bool) (fmt : PixelFormat) (ls : LoopState) :
    List Event → Option (LoopState ⊕ TickResult)
  | [] => some (Sum.inl ls)
  | e :: rest =>
    match stepEvent sendOk fmt ls e with
    | none => none
    | some (Sum.inl ls') => runList sendOk fmt ls' rest
    | some (Sum.inr r) => some (Sum.inr r)

/-- Connection-success branch of `handle_vnc_events` (lines 91-120):
`set_encodings` and the initial full `request_update` are `.unwrap()`ed
(panic on failure), the buffer is allocated at the reported extent and the
state becomes `Viewing`. -/
def applyConnect (sendOk : Bool) (w h : Nat) : Option TickResult :=
  if sendOk then
    some { state := AppState.Viewing
           hasClient := true
           screenSize := (w, h)
           pixels := List.replicate (w * h) Color32.BLACK
           requests := [⟨⟨0, 0, w, h⟩, false⟩]
           repaints := 0
           finalRedraw := false }
  else none

/-- Refresh-button handler (`app/ui.rs` lines 303-336): when a session
exists, one full non-incremental request over the current extent is
attempted and its result is discarded (`let _ = ...`), so the call never
panics regardless of `sendOk` and no other state changes. -/
def refreshClick (sendOk : Bool) (hasClient : Bool) (screenSize : Nat × Nat) :
    Option (List UpdateRequest) :=
  let _ := sendOk
  if hasClient then some [⟨⟨0, 0, screenSize.1, screenSize.2⟩, false⟩]
  else some []

/-- Throttle state of the input forwarder (`last_pointer_pos`,
`last_buttons`). -/
structure Throttle where
  lastPos : Option (Nat × Nat)
  lastButtons : Nat
deriving DecidableEq, Repr

/-- Pointer path of `handle_input` in `main.rs` (lines 521-555): when the
position or button mask changed, `send_pointer_event(..).unwrap()` is
called — a send failure panics (`none`).  Returns the new throttle state
and the number of pointer events sent. -/
def handleInputPointer (viewOnly hasClient sendOk : Bool) (t : Throttle)
    (buttons x y : Nat) : Option (Throttle × Nat) :=
  if viewOnly then some (t, 0)
  else if !hasClient then some (t, 0)
  else if t.lastPos ≠ some (x, y) ∨ t.lastButtons ≠ buttons then
    if sendOk then some ({ lastPos := some (x, y), lastButtons := buttons }, 1)
    else none
  else some (t, 0)

/-- The three pixel-mutating event kinds (`Resize`, `PutPixels`,
`CopyPixels`), exactly the arms that set `updated = true`. -/
def isMutating : Event → Bool
  | Event.Resize _ _ => true
  | Event.PutPixels _ _ => true
  | Event.CopyPixels _ _ => true
  | _ => false

/-- Recognizer for the `Disconnected` variant. -/
def isDisc : Event → Bool
  | Event.Disconnected _ => true
  | _ => false

/-! ### Helper lemmas -/

theorem putStep_fst_length (fmt : PixelFormat) (bpp : Nat) (bytes : List Nat)
    (acc : List Color32 × Nat) (idx : Nat) :
    (putStep fmt bpp bytes acc idx).1.length = acc.1.length := by
  unfold putStep
  split
  · simp
  · rfl

theorem foldl_putStep_length (fmt : PixelFormat) (bpp : Nat) (bytes : List Nat) :
    ∀ (coords : List Nat) (acc : List Color32 × Nat),
      ((coords.foldl (putStep fmt bpp bytes) acc).1).length = acc.1.length := by
  intro coords
  induction coords with
  | nil => intro acc; rfl
  | cons c cs ih =>
    intro acc
    rw [List.foldl_cons, ih, putStep_fst_length]

theorem updatePixels_length (screenW : Nat) (ps : List Color32) (rect : Rect)
    (bytes : List Nat) (fmt : PixelFormat) :
    (updatePixels screenW ps rect bytes fmt).length = ps.length := by
  unfold updatePixels
  exact foldl_putStep_length fmt (fmt.bitsPerPixel / 8) bytes _ _

theorem copyStep_some_of_get (cur : List Color32) (p : Nat × Nat) (v : Color32)
    (hg : cur[p.2]? = some v) :
    copyStep (some cur) p =
      if p.1 < cur.length then some (cur.set p.1 v) else none := by
  unfold copyStep
  simp [hg]

theorem copyStep_none_of_get (cur : List Color32) (p : Nat × Nat)
    (hg : cur[p.2]? = none) : copyStep (some cur) p = none := by
  unfold copyStep
  simp [hg]

theorem foldl_copyStep_none :
    ∀ (pairs : List (Nat × Nat)), pairs.foldl copyStep none = none := by
  intro pairs
  induction pairs with
  | nil => rfl
  | cons p rest ih => rw [List.foldl_cons]; exact ih

theorem copy_foldl_length :
    ∀ (pairs : List (Nat × Nat)) (cur r : List Color32),
      pairs.foldl copyStep (some cur) = some r → r.length = cur.length := by
  intro pairs
  induction pairs with
  | nil =>
    intro cur r h
    simp only [List.foldl_nil, Option.some.injEq] at h
    rw [← h]
  | cons p rest ih =>
    intro cur r h
    rw [List.foldl_cons] at h
    cases hg : cur[p.2]? with
    | none =>
      rw [copyStep_none_of_get cur p hg, foldl_copyStep_none] at h
      exact absurd h (by simp)
    | some v =>
      rw [copyStep_some_of_get cur p v hg] at h
      by_cases hlt : p.1 < cur.length
      · rw [if_pos hlt] at h
        have := ih (cur.set p.1 v) r h
        rwa [List.length_set] at this
      · rw [if_neg hlt, foldl_copyStep_none] at h
        exact absurd h (by simp)

theorem copy_foldl_some :
    ∀ (pairs : List (Nat × Nat)) (cur : List Color32),
      (∀ p ∈ pairs, p.1 < cur.length ∧ p.2 < cur.length) →
      ∃ r, pairs.foldl copyStep (some cur) = some r ∧ r.length = cur.length := by
  intro pairs
  induction pairs with
  | nil => intro cur _; exact ⟨cur, rfl, rfl⟩
  | cons p rest ih =>
    intro cur hb
    obtain ⟨h1, h2⟩ := hb p (List.mem_cons_self p rest)
    rw [List.foldl_cons,
      copyStep_some_of_get cur p cur[p.2] (List.getElem?_eq_getElem h2),
      if_pos h1]
    have hb' : ∀ q ∈ rest, q.1 < (cur.set p.1 cur[p.2]).length ∧
        q.2 < (cur.set p.1 cur[p.2]).length := by
      intro q hq
      rw [List.length_set]
      exact hb q (List.mem_cons_of_mem p hq)
    obtain ⟨r, hr, hlen⟩ := ih (cur.set p.1 cur[p.2]) hb'
    exact ⟨r, hr, by rw [hlen, List.length_set]⟩

theorem copy_foldl_snapshot (orig : List Color32) :
    ∀ (pairs : List (Nat × Nat)),
      (∀ p ∈ pairs, p.1 < orig.length ∧ p.2 < orig.length) →
      (∀ p ∈ pairs, ∀ q ∈ pairs, p.1 ≠ q.2) →
      ∀ (cur : List Color32), cur.length = orig.length →
        (∀ p ∈ pairs, cur[p.2]? = orig[p.2]?) →
        pairs.foldl copyStep (some cur) =
          some (pairs.foldl
            (fun c p => c.set p.1 (orig.getD p.2 Color32.BLACK)) cur) := by
  intro pairs
  induction pairs with
  | nil => intro _ _ cur _ _; rfl
  | cons p rest ih =>
    intro hb hdisj cur hlen hinv
    have hp := List.mem_cons_self p rest
    obtain ⟨h1, h2⟩ := hb p hp
    have h2c : p.2 < cur.length := hlen ▸ h2
    have h1c : p.1 < cur.length := hlen ▸ h1
    rw [List.foldl_cons, List.foldl_cons,
      copyStep_some_of_get cur p cur[p.2] (List.getElem?_eq_getElem h2c),
      if_pos h1c]
    have hval : cur[p.2] = orig.getD p.2 Color32.BLACK := by
      have := hinv p hp
      rw [List.getElem?_eq_getElem h2c, List.getElem?_eq_getElem h2] at this
      rw [List.getD_eq_getElem orig Color32.BLACK h2]
      exact Option.some.inj this
    rw [hval]
    apply ih
    · intro q hq; exact hb q (List.mem_cons_of_mem p hq)
    · intro q hq q' hq'
      exact hdisj q (List.mem_cons_of_mem p hq) q' (List.mem_cons_of_mem p hq')
    · rw [List.length_set]; exact hlen
    · intro q hq
      have hne : p.1 ≠ q.2 := hdisj p hp q (List.mem_cons_of_mem p hq)
      rw [List.getElem?_set_ne hne]
      exact hinv q (List.mem_cons_of_mem p hq)

theorem mem_copyPairs {screenW : Nat} {src dst : Rect} {p : Nat × Nat} :
    p ∈ copyPairs screenW src dst ↔
      ∃ y, y < src.height ∧ ∃ x, x < src.width ∧
        p = ((dst.top + y) * screenW + (dst.left + x),
             (src.top + y) * screenW + (src.left + x)) := by
  unfold copyPairs
  by_cases h : dst.top < src.top <;>
    simp [h, List.mem_flatMap, List.mem_map, List.mem_range, List.mem_reverse,
      eq_comm]

theorem rowcol_inj {W a b c d : Nat} (hb : b < W) (hd : d < W)
    (h : a * W + b = c * W + d) : a = c ∧ b = d := by
  have hW : 0 < W := Nat.lt_of_le_of_lt (Nat.zero_le b) hb
  have ha : (a * W + b) / W = a := by
    rw [Nat.add_comm, Nat.add_mul_div_right _ _ hW, Nat.div_eq_of_lt hb,
      Nat.zero_add]
  have hc : (c * W + d) / W = c := by
    rw [Nat.add_comm, Nat.add_mul_div_right _ _ hW, Nat.div_eq_of_lt hd,
      Nat.zero_add]
  have hac : a = c := by rw [← ha, ← hc, h]
  refine ⟨hac, ?_⟩
  rw [hac] at h
  exact Nat.add_left_cancel h

theorem idx_lt {W H top left y x h w : Nat} (hy : y < h) (hx : x < w)
    (hh : top + h ≤ H) (hw : left + w ≤ W) :
    (top + y) * W + (left + x) < W * H := by
  have h1 : left + x < W := by omega
  have h2 : top + y + 1 ≤ H := by omega
  calc (top + y) * W + (left + x) < (top + y) * W + W := by omega
    _ = (top + y + 1) * W := by ring
    _ ≤ H * W := Nat.mul_le_mul_right _ h2
    _ = W * H := Nat.mul_comm _ _

theorem copyPixels_length (screenW : Nat) (ps r : List Color32) (src dst : Rect)
    (h : copyPixels screenW ps src dst = some r) : r.length = ps.length :=
  copy_foldl_length _ _ _ h

theorem sampleAt_unsupported (fmt : PixelFormat) (bpp : Nat) (bytes : List Nat)
    (i : Nat) (h1 : bpp ≠ 1) (h2 : bpp ≠ 2) (h4 : bpp ≠ 4) :
    sampleAt fmt bpp bytes i = 0 := by
  unfold sampleAt
  rw [if_neg h1, if_neg h2, if_neg h4]

theorem channelOf_zero (shift mx : Nat) : channelOf 0 shift mx = 0 := by
  unfold channelOf
  simp [Nat.zero_shiftRight, Nat.zero_and]

theorem decodeAt_unsupported (fmt : PixelFormat) (bpp : Nat) (bytes : List Nat)
    (i : Nat) (h1 : bpp ≠ 1) (h2 : bpp ≠ 2) (h4 : bpp ≠ 4) :
    decodeAt fmt bpp bytes i = Color32.BLACK := by
  unfold decodeAt
  rw [sampleAt_unsupported fmt bpp bytes i h1 h2 h4]
  simp [channelOf_zero, Color32.BLACK]

theorem foldl_putStep_black (fmt : PixelFormat) (bpp : Nat) (bytes : List Nat)
    (hdec : ∀ i, decodeAt fmt bpp bytes i = Color32.BLACK) (ps : List Color32) :
    ∀ (coords : List Nat) (acc : List Color32 × Nat),
      (∀ j : Nat, acc.1[j]? = ps[j]? ∨ acc.1[j]? = some Color32.BLACK) →
      ∀ j : Nat, ((coords.foldl (putStep fmt bpp bytes) acc).1)[j]? = ps[j]? ∨
           ((coords.foldl (putStep fmt bpp bytes) acc).1)[j]? = some Color32.BLACK := by
  intro coords
  induction coords with
  | nil => intro acc h j; exact h j
  | cons c cs ih =>
    intro acc h j
    rw [List.foldl_cons]
    refine ih (putStep fmt bpp bytes acc c) ?_ j
    intro j'
    unfold putStep
    split
    · rename_i hguard
      rw [hdec]
      by_cases hj : c = j'
      · subst hj
        right
        exact List.getElem?_set_self hguard.1
      · rw [List.getElem?_set_ne hj]
        exact h j'
    · exact h j'

theorem runList_append (sOk : Bool) (fmt : PixelFormat) :
    ∀ (pre : List Event) (ls ls' : LoopState) (evs : List Event),
      runList sOk fmt ls pre = some (Sum.inl ls') →
      drainLoop sOk fmt ls (pre ++ evs) = drainLoop sOk fmt ls' evs := by
  intro pre
  induction pre with
  | nil =>
    intro ls ls' evs h
    simp only [runList, Option.some.injEq, Sum.inl.injEq] at h
    rw [List.nil_append, h]
  | cons e rest ih =>
    intro ls ls' evs h
    rw [List.cons_append]
    simp only [runList] at h
    simp only [drainLoop]
    cases hstep : stepEvent sOk fmt ls e with
    | none => rw [hstep] at h; exact absurd h (by simp)
    | some s =>
      rw [hstep] at h
      cases s with
      | inl ls1 => exact ih ls1 ls' evs h
      | inr r => exact absurd h (by simp)

theorem drainLoop_finalRedraw (sOk : Bool) (fmt : PixelFormat) :
    ∀ (evs : List Event) (ls : LoopState) (r : TickResult),
      drainLoop sOk fmt ls evs = some r →
      r.finalRedraw = ((ls.updated || evs.any isMutating) && !(evs.any isDisc)) := by
  intro evs
  induction evs with
  | nil =>
    intro ls r h
    simp only [drainLoop, Option.some.injEq] at h
    rw [← h]
    simp [finishTick]
  | cons e rest ih =>
    intro ls r h
    simp only [drainLoop] at h
    cases e with
    | Disconnected reason =>
      simp only [stepEvent] at h
      rw [← Option.some.inj h]
      simp [isMutating, isDisc, List.any_cons]
    | Resize w h' =>
      simp only [stepEvent] at h
      have := ih _ r h
      rw [this]
      simp [isMutating, isDisc, List.any_cons]
    | PutPixels rect bytes =>
      simp only [stepEvent] at h
      have := ih _ r h
      rw [this]
      simp [isMutating, isDisc, List.any_cons]
    | CopyPixels src dst =>
      simp only [stepEvent] at h
      cases hcp : copyPixels ls.screenSize.1 ls.pixels src dst with
      | none => rw [hcp] at h; exact absurd h (by simp)
      | some ps' =>
        rw [hcp] at h
        simp only [Option.map_some'] at h
        have := ih _ r h
        rw [this]
        simp [isMutating, isDisc, List.any_cons]
    | EndOfFrame =>
      simp only [stepEvent] at h
      cases sOk with
      | false => exact absurd h (by simp)
      | true =>
        simp only [if_pos rfl] at h
        have := ih _ r h
        rw [this]
        simp [isMutating, isDisc, List.any_cons]
    | Other =>
      simp only [stepEvent] at h
      have := ih _ r h
      rw [this]
      simp [isMutating, isDisc, List.any_cons]

/-! ### Claims -/

/-- C1, counterexample: the claim says `copy_pixels` never panics and never
touches an index at or beyond `pixels.len()` even for an out-of-range
rectangle, but on a 1×1 framebuffer a CopyRegion whose destination starts
one column past the right edge indexes `pixels[1]` and panics: the source
has no bound check in `copy_pixels`. -/
theorem C1_counterexample :
    copyPixels 1 [Color32.BLACK] ⟨0, 0, 1, 1⟩ ⟨1, 0, 1, 1⟩ = none := by decide

/-- C1, amended: `update_pixels` never panics for any rectangle (every
access is guarded, out-of-range target pixels are skipped per-pixel) and
leaves the buffer length unchanged; `copy_pixels` leaves the length
unchanged and is panic-free only when both rectangles lie entirely within
the framebuffer extent. -/
theorem C1_amended_bounds :
    (∀ (screenW : Nat) (ps : List Color32) (rect : Rect) (bytes : List Nat)
        (fmt : PixelFormat),
      (updatePixels screenW ps rect bytes fmt).length = ps.length) ∧
    (∀ (screenW screenH : Nat) (ps : List Color32) (src dst : Rect),
      ps.length = screenW * screenH →
      src.left + src.width ≤ screenW → src.top + src.height ≤ screenH →
      dst.left + src.width ≤ screenW → dst.top + src.height ≤ screenH →
      ∃ r, copyPixels screenW ps src dst = some r ∧ r.length = ps.length) := by
  constructor
  · exact updatePixels_length
  · intro screenW screenH ps src dst hlen hsw hsh hdw hdh
    unfold copyPixels
    apply copy_foldl_some
    intro p hp
    rw [mem_copyPairs] at hp
    obtain ⟨y, hy, x, hx, rfl⟩ := hp
    constructor
    · rw [hlen]; exact idx_lt hy hx hdh hdw
    · rw [hlen]; exact idx_lt hy hx hsh hsw

/-- Witness for C1: on a 2×1 framebuffer, an in-bounds one-pixel copy
succeeds and preserves the buffer length. -/
theorem C1_amended_bounds_witness :
    ∃ r, copyPixels 2 [Color32.BLACK, Color32.BLACK] ⟨0, 0, 1, 1⟩ ⟨1, 0, 1, 1⟩ =
      some r ∧ r.length = 2 :=
  C1_amended_bounds.2 2 1 [Color32.BLACK, Color32.BLACK] ⟨0, 0, 1, 1⟩ ⟨1, 0, 1, 1⟩
    (by decide) (by decide) (by decide) (by decide) (by decide)

/-- C2, counterexample: the claim says every outbound send failure is
discarded without panicking, but a failing `send_pointer_event` in
`handle_input` (`main.rs`) is `.unwrap()`ed, and so is the incremental
`request_update` issued on `EndOfFrame`: both panic. -/
theorem C2_counterexample :
    handleInputPointer false true false ⟨none, 0⟩ 0 0 0 = none ∧
    drainLoop false ⟨16, false, 11, 31, 5, 63, 0, 31⟩
      ⟨(1, 1), [Color32.BLACK], false, [], 0⟩ [Event.EndOfFrame] = none := by
  decide

/-- C2, amended: the UI-triggered refresh request discards its send result
(no panic, output independent of the send outcome), but the pointer/key
sends of `handle_input` in `main.rs`, the incremental request issued on
`EndOfFrame`, and the initial request on connect success all unwrap the
result and panic when the send fails. -/
theorem C2_amended_send_failures :
    (∀ (sOk hasClient : Bool) (sz : Nat × Nat),
      refreshClick sOk hasClient sz ≠ none ∧
      refreshClick sOk hasClient sz = refreshClick true hasClient sz) ∧
    (∀ (t : Throttle) (buttons x y : Nat),
      t.lastPos ≠ some (x, y) ∨ t.lastButtons ≠ buttons →
      handleInputPointer false true false t buttons x y = none) ∧
    (∀ (fmt : PixelFormat) (ls : LoopState) (rest : List Event),
      drainLoop false fmt ls (Event.EndOfFrame :: rest) = none) ∧
    (∀ w h : Nat, applyConnect false w h = none) := by
  refine ⟨?_, ?_, ?_, ?_⟩
  · intro sOk hasClient sz
    constructor
    · unfold refreshClick
      split <;> simp
    · rfl
  · intro t buttons x y hcond
    rcases hcond with hc | hc <;> simp [handleInputPointer, hc]
  · intro fmt ls rest
    simp [drainLoop, stepEvent]
  · intro w h
    rfl

/-- Witness for C2: a pointer send failure with a stale throttle position
panics. -/
theorem C2_amended_witness :
    handleInputPointer false true false ⟨some (1, 1), 0⟩ 0 0 0 = none :=
  C2_amended_send_failures.2.1 ⟨some (1, 1), 0⟩ 0 0 0 (by decide)

/-- C3: for equal-sized in-bounds rectangles that share no columns
whenever their row ranges overlap, the in-place `copy_pixels` produces
exactly the buffer obtained by copying the source block out of an
unmodified snapshot, in both row-traversal directions. -/
theorem C3_copy_inplace_eq_snapshot (screenW screenH : Nat)
    (ps : List Color32) (src dst : Rect)
    (hlen : ps.length = screenW * screenH)
    (hsw : src.left + src.width ≤ screenW) (hsh : src.top + src.height ≤ screenH)
    (hdw : dst.left + src.width ≤ screenW) (hdh : dst.top + src.height ≤ screenH)
    (hweq : dst.width = src.width) (hheq : dst.height = src.height)
    (hcols : dst.top < src.top + src.height → src.top < dst.top + src.height →
      dst.left + src.width ≤ src.left ∨ src.left + src.width ≤ dst.left) :
    copyPixels screenW ps src dst = some (copySnapshot screenW ps src dst) := by
  unfold copyPixels copySnapshot
  apply copy_foldl_snapshot
  · intro p hp
    rw [mem_copyPairs] at hp
    obtain ⟨y, hy, x, hx, rfl⟩ := hp
    constructor
    · rw [hlen]; exact idx_lt hy hx hdh hdw
    · rw [hlen]; exact idx_lt hy hx hsh hsw
  · intro p hp q hq
    rw [mem_copyPairs] at hp hq
    obtain ⟨y1, hy1, x1, hx1, rfl⟩ := hp
    obtain ⟨y2, hy2, x2, hx2, rfl⟩ := hq
    intro heq
    have hb : dst.left + x1 < screenW := by omega
    have hd : src.left + x2 < screenW := by omega
    obtain ⟨hrow, hcol⟩ := rowcol_inj hb hd heq
    have hover1 : dst.top < src.top + src.height := by omega
    have hover2 : src.top < dst.top + src.height := by omega
    rcases hcols hover1 hover2 with hc | hc <;> omega
  · rfl
  · intro p _
    rfl

/-- Witness for C3: a 2×3 framebuffer with 1×2 rectangles overlapping by
one row, once with `dst.top > src.top` (bottom-to-top traversal) and once
with `dst.top < src.top` (top-to-bottom traversal). -/
theorem C3_copy_witness :
    copyPixels 2 [⟨1, 1, 1⟩, ⟨2, 2, 2⟩, ⟨3, 3, 3⟩, ⟨4, 4, 4⟩, ⟨5, 5, 5⟩, ⟨6, 6, 6⟩]
        ⟨0, 0, 1, 2⟩ ⟨1, 1, 1, 2⟩ =
      some (copySnapshot 2
        [⟨1, 1, 1⟩, ⟨2, 2, 2⟩, ⟨3, 3, 3⟩, ⟨4, 4, 4⟩, ⟨5, 5, 5⟩, ⟨6, 6, 6⟩]
        ⟨0, 0, 1, 2⟩ ⟨1, 1, 1, 2⟩) ∧
    copyPixels 2 [⟨1, 1, 1⟩, ⟨2, 2, 2⟩, ⟨3, 3, 3⟩, ⟨4, 4, 4⟩, ⟨5, 5, 5⟩, ⟨6, 6, 6⟩]
        ⟨1, 1, 1, 2⟩ ⟨0, 0, 1, 2⟩ =
      some (copySnapshot 2
        [⟨1, 1, 1⟩, ⟨2, 2, 2⟩, ⟨3, 3, 3⟩, ⟨4, 4, 4⟩, ⟨5, 5, 5⟩, ⟨6, 6, 6⟩]
        ⟨1, 1, 1, 2⟩ ⟨0, 0, 1, 2⟩) :=
  ⟨C3_copy_inplace_eq_snapshot 2 3
      [⟨1, 1, 1⟩, ⟨2, 2, 2⟩, ⟨3, 3, 3⟩, ⟨4, 4, 4⟩, ⟨5, 5, 5⟩, ⟨6, 6, 6⟩]
      ⟨0, 0, 1, 2⟩ ⟨1, 1, 1, 2⟩ (by decide) (by decide) (by decide) (by decide)
      (by decide) (by decide) (by decide) (fun _ _ => by decide),
   C3_copy_inplace_eq_snapshot 2 3
      [⟨1, 1, 1⟩, ⟨2, 2, 2⟩, ⟨3, 3, 3⟩, ⟨4, 4, 4⟩, ⟨5, 5, 5⟩, ⟨6, 6, 6⟩]
      ⟨1, 1, 1, 2⟩ ⟨0, 0, 1, 2⟩ (by decide) (by decide) (by decide) (by decide)
      (by decide) (by decide) (by decide) (fun _ _ => by decide)⟩

/-- C4, counterexample: the claim says every processed `Resize` event is
followed by a full update request over the new extent, but a drain
consisting of one `Resize` issues no outbound request at all. -/
theorem C4_counterexample :
    (drainLoop true ⟨16, false, 11, 31, 5, 63, 0, 31⟩
        ⟨(1, 1), [Color32.BLACK], false, [], 0⟩ [Event.Resize 2 2]).map
      TickResult.requests = some [] := by decide

/-- C4, amended: processing a `Resize` event reallocates the buffer to the
new extent, marks the tick redrawn and issues no update request; a full
non-incremental request over the entire extent is issued by the
user-triggered refresh action (and on connect success), not on `Resize`. -/
theorem C4_amended_resize :
    (∀ (sOk : Bool) (fmt : PixelFormat) (ls : LoopState) (w h : Nat),
      drainLoop sOk fmt ls [Event.Resize w h] =
        some { state := AppState.Viewing, hasClient := true,
               screenSize := (w, h),
               pixels := List.replicate (w * h) Color32.BLACK,
               requests := ls.requests, repaints := ls.repaints + 1,
               finalRedraw := true }) ∧
    (∀ (sOk : Bool) (sz : Nat × Nat),
      refreshClick sOk true sz = some [⟨⟨0, 0, sz.1, sz.2⟩, false⟩]) ∧
    (∀ (w h : Nat) (r : TickResult), applyConnect true w h = some r →
      r.requests = [⟨⟨0, 0, w, h⟩, false⟩]) := by
  refine ⟨?_, ?_, ?_⟩
  · intro sOk fmt ls w h
    simp [drainLoop, stepEvent, finishTick]
  · intro sOk sz
    rfl
  · intro w h r hr
    simp [applyConnect] at hr
    subst hr
    rfl

/-- Witness for C4: a concrete successful connect issues the initial full
request. -/
theorem C4_amended_witness :
    ({ state := AppState.Viewing, hasClient := true, screenSize := (3, 2),
       pixels := List.replicate (3 * 2) Color32.BLACK,
       requests := [⟨⟨0, 0, 3, 2⟩, false⟩], repaints := 0,
       finalRedraw := false } : TickResult).requests = [⟨⟨0, 0, 3, 2⟩, false⟩] :=
  C4_amended_resize.2.2 3 2 _ (by decide)

/-- C5: channel extraction is `raw = (sample >> shift) & max` with direct
use when `max = 255`, truncating rescale `raw * 255 / max` when
`0 < max < 255` (mapping `0 ↦ 0` and `max ↦ 255`), and 0 when `max = 0`;
and the 16-bit little-endian format `(r 11/31, g 5/63, b 0/31)` decodes
the raw bytes `[0x00, 0xF8]` to `(255, 0, 0)`. -/
theorem C5_channel_extraction :
    (∀ val shift mx : Nat,
      (mx = 255 → channelOf val shift mx = (val >>> shift) &&& mx) ∧
      (0 < mx → mx < 255 →
        channelOf val shift mx = ((val >>> shift) &&& mx) * 255 / mx) ∧
      (mx = 0 → channelOf val shift mx = 0) ∧
      (0 < mx → 0 * 255 / mx = 0 ∧ mx * 255 / mx = 255)) ∧
    updatePixels 1 [Color32.BLACK] ⟨0, 0, 1, 1⟩ [0x00, 0xF8]
      ⟨16, false, 11, 31, 5, 63, 0, 31⟩ = [⟨255, 0, 0⟩] := by
  constructor
  · intro val shift mx
    refine ⟨?_, ?_, ?_, ?_⟩
    · intro h255
      subst h255
      unfold channelOf
      rw [if_pos rfl]
      exact Nat.mod_eq_of_lt (Nat.lt_succ_of_le Nat.and_le_right)
    · intro hpos hlt
      unfold channelOf
      rw [if_neg (by omega), if_pos hpos]
      apply Nat.mod_eq_of_lt
      have h1 : ((val >>> shift) &&& mx) * 255 / mx ≤ 255 := by
        calc ((val >>> shift) &&& mx) * 255 / mx
            ≤ mx * 255 / mx :=
              Nat.div_le_div_right (Nat.mul_le_mul_right _ Nat.and_le_right)
          _ = 255 := by
              rw [Nat.mul_comm mx 255]; exact Nat.mul_div_cancel 255 hpos
      omega
    · intro h0
      subst h0
      unfold channelOf
      rw [if_neg (by decide), if_neg (by decide)]
    · intro hpos
      constructor
      · rw [Nat.zero_mul, Nat.zero_div]
      · rw [Nat.mul_comm mx 255]; exact Nat.mul_div_cancel 255 hpos
  · decide

/-- Witness for C5: the red channel of the 0xF800 sample rescales from raw
31 to 255; a zero `max` yields 0; rescale endpoints for `max = 63`. -/
theorem C5_channel_witness :
    channelOf 63488 11 31 = ((63488 >>> 11) &&& 31) * 255 / 31 ∧
    channelOf 5 3 0 = 0 ∧
    0 * 255 / 63 = 0 ∧ 63 * 255 / 63 = 255 :=
  ⟨(C5_channel_extraction.1 63488 11 31).2.1 (by decide) (by decide),
   (C5_channel_extraction.1 5 3 0).2.2.1 rfl,
   ((C5_channel_extraction.1 0 0 63).2.2.2 (by decide)).1,
   ((C5_channel_extraction.1 0 0 63).2.2.2 (by decide)).2⟩

/-- C6, counterexample: the claim says a PixelBlock with an unsupported
sample width (here 3 bytes, 24 bpp) is skipped leaving the rectangle
unmodified, but the code decodes every sample as 0 and overwrites the
white pixel with black. -/
theorem C6_counterexample :
    updatePixels 1 [⟨255, 255, 255⟩] ⟨0, 0, 1, 1⟩ [1, 2, 3]
        ⟨24, false, 16, 255, 8, 255, 0, 255⟩ = [⟨0, 0, 0⟩] ∧
    ([⟨0, 0, 0⟩] : List Color32) ≠ [⟨255, 255, 255⟩] := by decide

/-- C6, amended: for a sample width other than 1, 2 or 4 bytes the block
is *not* skipped: every sample assembles to 0, so each target pixel that
passes the bounds checks is overwritten with black (every cell of the
result is either its old value or black), and the buffer length is
unchanged. -/
theorem C6_amended_unsupported (screenW : Nat) (ps : List Color32)
    (rect : Rect) (bytes : List Nat) (fmt : PixelFormat)
    (h1 : fmt.bitsPerPixel / 8 ≠ 1) (h2 : fmt.bitsPerPixel / 8 ≠ 2)
    (h4 : fmt.bitsPerPixel / 8 ≠ 4) :
    (∀ j : Nat, (updatePixels screenW ps rect bytes fmt)[j]? = ps[j]? ∨
      (updatePixels screenW ps rect bytes fmt)[j]? = some Color32.BLACK) ∧
    (updatePixels screenW ps rect bytes fmt).length = ps.length := by
  constructor
  · intro j
    unfold updatePixels
    exact foldl_putStep_black fmt _ bytes
      (fun i => decodeAt_unsupported fmt _ bytes i h1 h2 h4) ps
      (pixelCoords rect screenW) (ps, 0) (fun _ => Or.inl rfl) j
  · exact updatePixels_length screenW ps rect bytes fmt

/-- Witness for C6: at the 24-bpp counterexample input, cell 0 of the
result is the old pixel or black. -/
theorem C6_amended_witness :
    (updatePixels 1 [⟨255, 255, 255⟩] ⟨0, 0, 1, 1⟩ [1, 2, 3]
        ⟨24, false, 16, 255, 8, 255, 0, 255⟩)[0]? =
      ([⟨255, 255, 255⟩] : List Color32)[0]? ∨
    (updatePixels 1 [⟨255, 255, 255⟩] ⟨0, 0, 1, 1⟩ [1, 2, 3]
        ⟨24, false, 16, 255, 8, 255, 0, 255⟩)[0]? = some Color32.BLACK :=
  (C6_amended_unsupported 1 [⟨255, 255, 255⟩] ⟨0, 0, 1, 1⟩ [1, 2, 3]
      ⟨24, false, 16, 255, 8, 255, 0, 255⟩
      (by decide) (by decide) (by decide)).1 0

/-- C7, counterexample: the claim says a tick that processed at least one
pixel-mutating event emits exactly one redraw signal, but when a
`Disconnected` event follows a processed `Resize` in the same drain, the
early return skips the end-of-drain redraw block: zero signals. -/
theorem C7_counterexample :
    isMutating (Event.Resize 1 1) = true ∧
    (drainLoop true ⟨16, false, 11, 31, 5, 63, 0, 31⟩
        ⟨(1, 1), [Color32.BLACK], false, [], 0⟩
        [Event.Resize 1 1, Event.Disconnected "gone"]).map
      TickResult.finalRedraw = some false := by decide

/-- C7, amended: a non-panicking tick emits the end-of-drain redraw signal
exactly when at least one pixel-mutating event was processed *and* no
`Disconnected` event occurred in the drained sequence; otherwise none. -/
theorem C7_amended_redraw (sOk : Bool) (fmt : PixelFormat) (ls : LoopState)
    (evs : List Event) (r : TickResult) (h0 : ls.updated = false)
    (h : drainLoop sOk fmt ls evs = some r) :
    r.finalRedraw = (evs.any isMutating && !(evs.any isDisc)) := by
  have hmain := drainLoop_finalRedraw sOk fmt evs ls r h
  rw [h0] at hmain
  simpa using hmain

/-- Witness for C7: a tick draining a single `Resize` emits the redraw
signal. -/
theorem C7_amended_witness :
    (⟨AppState.Viewing, true, (1, 1), List.replicate (1 * 1) Color32.BLACK,
        [], 1, true⟩ : TickResult).finalRedraw =
      (([Event.Resize 1 1] : List Event).any isMutating &&
        !(([Event.Resize 1 1] : List Event).any isDisc)) :=
  C7_amended_redraw true ⟨16, false, 11, 31, 5, 63, 0, 31⟩
    ⟨(1, 1), [Color32.BLACK], false, [], 0⟩ [Event.Resize 1 1]
    ⟨AppState.Viewing, true, (1, 1), List.replicate (1 * 1) Color32.BLACK,
      [], 1, true⟩ rfl (by decide)

/-- C8: a `Disconnected` event makes the drain return immediately with the
state machine back in the disconnected (`Connect`) state and the session
handle dropped; the framebuffer, its dimensions, and the outbound effects
are exactly those accumulated before the event, and the events queued
after it are never processed (the result does not depend on `post`). -/
theorem C8_disconnect_truncates (sOk : Bool) (fmt : PixelFormat)
    (ls ls' : LoopState) (pre post : List Event) (reason : String)
    (h : runList sOk fmt ls pre = some (Sum.inl ls')) :
    drainLoop sOk fmt ls (pre ++ Event.Disconnected reason :: post) =
      some { state := AppState.Connect, hasClient := false,
             screenSize := ls'.screenSize, pixels := ls'.pixels,
             requests := ls'.requests, repaints := ls'.repaints,
             finalRedraw := false } := by
  rw [runList_append sOk fmt pre ls ls' (Event.Disconnected reason :: post) h]
  simp [drainLoop, stepEvent]

/-- Witness for C8: after a processed `Resize 2 2`, a disconnect drops the
two queued events and keeps the 2×2 buffer. -/
theorem C8_disconnect_witness :
    drainLoop true ⟨16, false, 11, 31, 5, 63, 0, 31⟩
        ⟨(1, 1), [Color32.BLACK], false, [], 0⟩
        ([Event.Resize 2 2] ++
          Event.Disconnected "gone" :: [Event.Resize 5 5, Event.EndOfFrame]) =
      some { state := AppState.Connect, hasClient := false,
             screenSize := (2, 2),
             pixels := List.replicate (2 * 2) Color32.BLACK,
             requests := [], repaints := 0, finalRedraw := false } :=
  C8_disconnect_truncates true ⟨16, false, 11, 31, 5, 63, 0, 31⟩
    ⟨(1, 1), [Color32.BLACK], false, [], 0⟩
    ⟨(2, 2), List.replicate (2 * 2) Color32.BLACK, true, [], 0⟩
    [Event.Resize 2 2] [Event.Resize 5 5, Event.EndOfFrame] "gone" (by decide)

/-- C9: processing `EndOfFrame` immediately appends exactly one update
request marked incremental whose rectangle is `{left 0, top 0, width/height
= current framebuffer extent}` (and one repaint), before the rest of the
drain continues. -/
theorem C9_endofframe_request (fmt : PixelFormat) (ls : LoopState)
    (rest : List Event) :
    drainLoop true fmt ls (Event.EndOfFrame :: rest) =
      drainLoop true fmt
        { ls with
          repaints := ls.repaints + 1,
          requests := ls.requests ++
            [⟨⟨0, 0, ls.screenSize.1, ls.screenSize.2⟩, true⟩] } rest := by
  simp [drainLoop, stepEvent]

/-- C10: the connect-success branch and the `Resize` arm allocate exactly
`width * height` black pixels, and every event-processing step that
returns normally preserves the invariant `pixels.length =
screen_size.0 * screen_size.1`; the two in-place mutating operations
(`update_pixels`, `copy_pixels`) change neither the buffer length nor the
recorded dimensions. -/
theorem C10_length_invariant :
    (∀ (w h : Nat) (r : TickResult), applyConnect true w h = some r →
      r.pixels.length = r.screenSize.1 * r.screenSize.2 ∧
      r.pixels = List.replicate (w * h) Color32.BLACK) ∧
    (∀ (sOk : Bool) (fmt : PixelFormat) (ls ls' : LoopState) (e : Event),
      ls.pixels.length = ls.screenSize.1 * ls.screenSize.2 →
      stepEvent sOk fmt ls e = some (Sum.inl ls') →
      ls'.pixels.length = ls'.screenSize.1 * ls'.screenSize.2) ∧
    (∀ (sOk : Bool) (fmt : PixelFormat) (ls ls' : LoopState) (rect : Rect)
        (bytes : List Nat),
      stepEvent sOk fmt ls (Event.PutPixels rect bytes) = some (Sum.inl ls') →
      ls'.screenSize = ls.screenSize ∧ ls'.pixels.length = ls.pixels.length) ∧
    (∀ (sOk : Bool) (fmt : PixelFormat) (ls ls' : LoopState) (src dst : Rect),
      stepEvent sOk fmt ls (Event.CopyPixels src dst) = some (Sum.inl ls') →
      ls'.screenSize = ls.screenSize ∧ ls'.pixels.length = ls.pixels.length) := by
  refine ⟨?_, ?_, ?_, ?_⟩
  · intro w h r hr
    simp [applyConnect] at hr
    subst hr
    simp [List.length_replicate]
  · intro sOk fmt ls ls' e hinv hstep
    cases e with
    | Disconnected reason => simp [stepEvent] at hstep
    | Resize w h =>
      simp only [stepEvent, Option.some.injEq, Sum.inl.injEq] at hstep
      subst hstep
      simp [List.length_replicate]
    | PutPixels rect bytes =>
      simp only [stepEvent, Option.some.injEq, Sum.inl.injEq] at hstep
      subst hstep
      simpa [updatePixels_length] using hinv
    | CopyPixels src dst =>
      simp only [stepEvent] at hstep
      cases hcp : copyPixels ls.screenSize.1 ls.pixels src dst with
      | none => rw [hcp] at hstep; simp at hstep
      | some ps' =>
        rw [hcp] at hstep
        simp only [Option.map_some', Option.some.injEq, Sum.inl.injEq] at hstep
        subst hstep
        simpa [copyPixels_length ls.screenSize.1 ls.pixels ps' src dst hcp]
          using hinv
    | EndOfFrame =>
      cases sOk with
      | false => simp [stepEvent] at hstep
      | true =>
        simp [stepEvent] at hstep
        subst hstep
        exact hinv
    | Other =>
      simp only [stepEvent, Option.some.injEq, Sum.inl.injEq] at hstep
      subst hstep
      exact hinv
  · intro sOk fmt ls ls' rect bytes hstep
    simp only [stepEvent, Option.some.injEq, Sum.inl.injEq] at hstep
    subst hstep
    simp [updatePixels_length]
  · intro sOk fmt ls ls' src dst hstep
    simp only [stepEvent] at hstep
    cases hcp : copyPixels ls.screenSize.1 ls.pixels src dst with
    | none => rw [hcp] at hstep; simp at hstep
    | some ps' =>
      rw [hcp] at hstep
      simp only [Option.map_some', Option.some.injEq, Sum.inl.injEq] at hstep
      subst hstep
      exact ⟨rfl, copyPixels_length ls.screenSize.1 ls.pixels ps' src dst hcp⟩

/-- Witness for C10: processing a `Resize 2 2` from a 1×1 state yields a
buffer of length `2 * 2`. -/
theorem C10_invariant_witness :
    (⟨(2, 2), List.replicate (2 * 2) Color32.BLACK, true, [], 0⟩ :
        LoopState).pixels.length =
      ((2, 2) : Nat × Nat).1 * ((2, 2) : Nat × Nat).2 :=
  C10_length_invariant.2.1 true ⟨16, false, 11, 31, 5, 63, 0, 31⟩
    ⟨(1, 1), [Color32.BLACK], false, [], 0⟩
    ⟨(2, 2), List.replicate (2 * 2) Color32.BLACK, true, [], 0⟩
    (Event.Resize 2 2) (by decide) (by decide)

end VncClient
